import Mathlib

/-!
Verification of the DermaLogic core: the environmental decision engine
(src/core/algorithme.py), the analysis-history store (src/core/historique.py),
the offline cache (src/core/cache.py) and the product model (src/core/models.py),
shallowly embedded in Lean 4.

Modelling conventions:
- Python floats carrying environmental readings become rationals; the code only
  compares them against constant thresholds.
- Timestamps become integers (instants on a linear clock); an entry whose stored
  ISO timestamp cannot be parsed by datetime.fromisoformat is modelled by a
  timestamp of `none`.
- Python dicts keyed by strings become association lists with first-key lookup
  and in-place update, matching dict assignment semantics.
- Python in-place list mutation (the engine's occlusivity sort) is modelled with
  an explicit store of lists addressed by natural numbers.
-/

/-! ## Shared enumerations (src/core/algorithme.py and src/core/models.py) -/

/-- Categories de produits dermatologiques. -/
inductive Categorie where
  | cleanser
  | treatment
  | moisturizer
  | protection
deriving DecidableEq, Repr

/-- Tags d action principale des actifs. -/
inductive ActiveTag where
  | acne
  | hydration
  | repair
deriving DecidableEq, Repr

/-- Moment d utilisation recommande du produit. -/
inductive MomentUtilisation where
  | matin
  | journee
  | soir
  | tous
deriving DecidableEq, Repr

namespace Algorithme

/-! ## Decision engine (src/core/algorithme.py) -/

def SEUIL_UV_CRITIQUE : ℚ := 3
def SEUIL_HUMIDITE_BASSE : ℚ := 45
def SEUIL_HUMIDITE_HAUTE : ℚ := 70
def SEUIL_PM25_POLLUTION : ℚ := 25

/-- ProduitDerma of algorithme.py (no custom attributes there). -/
structure ProduitDerma where
  nom : String
  category : Categorie
  moment : MomentUtilisation
  photosensitive : Bool
  occlusivity : Int
  cleansing_power : Int
  active_tag : ActiveTag
deriving DecidableEq, Repr

structure ConditionsEnvironnementales where
  indice_uv : ℚ
  humidite : ℚ
  pm2_5 : Option ℚ
deriving DecidableEq, Repr

def ConditionsEnvironnementales.uv_critique (c : ConditionsEnvironnementales) : Bool :=
  decide (SEUIL_UV_CRITIQUE < c.indice_uv)

def environnement_sec (c : ConditionsEnvironnementales) : Bool :=
  decide (c.humidite < SEUIL_HUMIDITE_BASSE)

def environnement_humide (c : ConditionsEnvironnementales) : Bool :=
  decide (SEUIL_HUMIDITE_HAUTE < c.humidite)

def pollution_elevee (c : ConditionsEnvironnementales) : Bool :=
  match c.pm2_5 with
  | none => false
  | some v => decide (SEUIL_PM25_POLLUTION < v)

/-- One entry of `filtres_appliques`. The code stores a formatted string such as
"UV=5.0 > 3"; the model records which of the four descriptors was appended. -/
inductive Descripteur where
  | uv
  | humiditeBasse
  | humiditeHaute
  | pm25
deriving DecidableEq, Repr

structure ResultatMoment where
  produits : List ProduitDerma
  nettoyant_optimal : Option ProduitDerma
deriving DecidableEq, Repr

structure ResultatDecision where
  matin : ResultatMoment
  journee : ResultatMoment
  soir : ResultatMoment
  produits_exclus : List ProduitDerma
  raisons_exclusion : List (String × String)
  filtres_appliques : List Descripteur
deriving DecidableEq, Repr

/-- Python dict assignment `d[k] = v` on a string-keyed dict kept as an
association list: replace the first entry with key `k`, else append. -/
def dictSet (d : List (String × String)) (k v : String) : List (String × String) :=
  match d with
  | [] => [(k, v)]
  | (k0, v0) :: reste =>
      if k0 = k then (k0, v) :: reste else (k0, v0) :: dictSet reste k v

/-- The loop `resultat.raisons_exclusion[p.nom] = motif` over excluded products. -/
def majRaisons (d : List (String × String)) (ps : List ProduitDerma) (motif : String) :
    List (String × String) :=
  ps.foldl (fun acc p => dictSet acc p.nom motif) d

def motifUV : String := "Photosensible + UV eleve"
def motifHumidite : String := "Trop occlusif (humidite elevee)"

/-- Products the UV safety filter excludes: photosensitive and used matin/journee. -/
def exclusionUV (p : ProduitDerma) : Bool :=
  p.photosensitive && (p.moment == MomentUtilisation.matin || p.moment == MomentUtilisation.journee)

/-- Stage A of `MoteurDecision.analyser`: (kept products, excluded products). -/
def filtreSecurite (c : ConditionsEnvironnementales) (l : List ProduitDerma) :
    List ProduitDerma × List ProduitDerma :=
  if c.uv_critique then (l.filter (fun p => !(exclusionUV p)), l.filter exclusionUV)
  else (l, [])

/-- The key order of `produits_actifs.sort(key=lambda p: p.occlusivity, reverse=True)`. -/
def relOcc (a b : ProduitDerma) : Prop := b.occlusivity ≤ a.occlusivity

instance : DecidableRel relOcc := fun a b => Int.decLe b.occlusivity a.occlusivity

instance : IsTotal ProduitDerma relOcc := ⟨fun a b => le_total b.occlusivity a.occlusivity⟩

instance : IsTrans ProduitDerma relOcc := ⟨fun _ _ _ h1 h2 => le_trans h2 h1⟩

/-- Python list.sort is a stable sort; with `reverse=True` on the occlusivity key it
is the stable sort along `relOcc`, embedded as insertion sort. -/
def trierParOcclusivite (l : List ProduitDerma) : List ProduitDerma :=
  l.insertionSort relOcc

/-- Products the high-humidity branch excludes: occlusivity at most 2 and not a cleanser. -/
def exclusionHumidite (p : ProduitDerma) : Bool :=
  decide (p.occlusivity ≤ 2) && !(p.category == Categorie.cleanser)

/-- Stage B of `MoteurDecision.analyser`: (kept products in order, excluded products). -/
def filtreTexture (c : ConditionsEnvironnementales) (l : List ProduitDerma) :
    List ProduitDerma × List ProduitDerma :=
  if environnement_sec c then (trierParOcclusivite l, [])
  else if environnement_humide c then
    (l.filter (fun p => !(exclusionHumidite p)), l.filter exclusionHumidite)
  else (l, [])

/-- `max(nettoyants, key=lambda p: p.cleansing_power)` keeps the first maximum. -/
def pyMax (x : ProduitDerma) (xs : List ProduitDerma) : ProduitDerma :=
  xs.foldl (fun best p => if best.cleansing_power < p.cleansing_power then p else best) x

/-- `max(...)` guarded by `if nettoyants:`. -/
def maxNettoyant : List ProduitDerma → Option ProduitDerma
  | [] => none
  | x :: xs => some (pyMax x xs)

def nettoyantsDe (l : List ProduitDerma) : List ProduitDerma :=
  l.filter (fun p => p.category == Categorie.cleanser)

/-- Stage C of `MoteurDecision.analyser`. -/
def nettoyantOptimal (c : ConditionsEnvironnementales) (l : List ProduitDerma) :
    Option ProduitDerma :=
  if pollution_elevee c then maxNettoyant (nettoyantsDe l) else none

def filtrerParMoment (l : List ProduitDerma) (m : MomentUtilisation) : List ProduitDerma :=
  l.filter (fun p => p.moment == m || p.moment == MomentUtilisation.tous)

/-- The descriptors appended to `filtres_appliques`, in program order. -/
def descripteurs (c : ConditionsEnvironnementales) : List Descripteur :=
  (if c.uv_critique then [Descripteur.uv] else [])
    ++ (if environnement_sec c then [Descripteur.humiditeBasse]
        else if environnement_humide c then [Descripteur.humiditeHaute] else [])
    ++ (if pollution_elevee c then [Descripteur.pm25] else [])

/-- `MoteurDecision.analyser` as a pure function of the stored catalog. -/
def analyser (produits_originaux : List ProduitDerma) (c : ConditionsEnvironnementales) :
    ResultatDecision :=
  let sA := filtreSecurite c produits_originaux
  let sB := filtreTexture c sA.1
  let nopt := nettoyantOptimal c sB.1
  { matin := ⟨filtrerParMoment sB.1 MomentUtilisation.matin, nopt⟩
    journee := ⟨filtrerParMoment sB.1 MomentUtilisation.journee, none⟩
    soir := ⟨filtrerParMoment sB.1 MomentUtilisation.soir, nopt⟩
    produits_exclus := sA.2 ++ sB.2
    raisons_exclusion := majRaisons (majRaisons [] sA.2 motifUV) sB.2 motifHumidite
    filtres_appliques := descripteurs c }

end Algorithme

/-! ### Store model of Python list references.

The engine copies the caller's list in `__init__` (`produits.copy()`) and again at
the start of `analyser` (`self.produits_originaux.copy()`); the low-humidity
branch then sorts the per-call copy in place. To state that faithfully, lists
live in a store addressed by naturals: allocation appends, the in-place sort
writes back through the reference it holds. -/

/-- A store of Python list objects; an address is an index into it. -/
abbrev Store := List (List Algorithme.ProduitDerma)

def lire (st : Store) (r : Nat) : List Algorithme.ProduitDerma := st.getD r []

def ecrire (st : Store) (r : Nat) (v : List Algorithme.ProduitDerma) : Store := st.set r v

def allouer (st : Store) (v : List Algorithme.ProduitDerma) : Nat × Store :=
  (st.length, st ++ [v])

namespace Algorithme

/-- The engine state: `self.produits_originaux` is a reference into the store. -/
structure MoteurDecision where
  produits_originaux : Nat
deriving DecidableEq, Repr

/-- `MoteurDecision.__init__`: store a copy of the caller's list. -/
def MoteurDecision.init (st : Store) (produits : Nat) : MoteurDecision × Store :=
  let a := allouer st (lire st produits)
  (⟨a.1⟩, a.2)

/-- `MoteurDecision.analyser` with its heap effects: `produits_actifs` starts as a
fresh copy of the stored catalog; stage A rebinds it to a fresh filtered list;
the low-humidity branch of stage B sorts in place through the current reference. -/
def MoteurDecision.analyserEtat (m : MoteurDecision) (c : ConditionsEnvironnementales)
    (st : Store) : ResultatDecision × Store :=
  let a0 := allouer st (lire st m.produits_originaux)
  let st1 := a0.2
  let sA := filtreSecurite c (lire st1 a0.1)
  let aA := if c.uv_critique then allouer st1 sA.1 else (a0.1, st1)
  let refActifs := aA.1
  let st2 := aA.2
  let st3 :=
    if environnement_sec c then ecrire st2 refActifs (trierParOcclusivite (lire st2 refActifs))
    else st2
  let sB :=
    if environnement_sec c then (lire st3 refActifs, ([] : List ProduitDerma))
    else if environnement_humide c then
      ((lire st3 refActifs).filter (fun p => !(exclusionHumidite p)),
        (lire st3 refActifs).filter exclusionHumidite)
    else (lire st3 refActifs, [])
  let nopt := nettoyantOptimal c sB.1
  ({ matin := ⟨filtrerParMoment sB.1 MomentUtilisation.matin, nopt⟩
     journee := ⟨filtrerParMoment sB.1 MomentUtilisation.journee, none⟩
     soir := ⟨filtrerParMoment sB.1 MomentUtilisation.soir, nopt⟩
     produits_exclus := sA.2 ++ sB.2
     raisons_exclusion := majRaisons (majRaisons [] sA.2 motifUV) sB.2 motifHumidite
     filtres_appliques := descripteurs c }, st3)

/-- First cleanser attaining the maximal cleansing power, written the way the
specification reads: the first remaining cleanser no other one strictly beats. -/
def premierNettoyantMaximal (l : List ProduitDerma) : Option ProduitDerma :=
  l.find? (fun p => l.all (fun q => q.cleansing_power ≤ p.cleansing_power))

/-! ### Concrete products and conditions for witness runs -/

def produitNeutre : ProduitDerma :=
  ⟨"Savon doux", Categorie.cleanser, MomentUtilisation.tous, false, 3, 3, ActiveTag.hydration⟩

def produitPhotosensibleMatin : ProduitDerma :=
  ⟨"Serum AHA", Categorie.treatment, MomentUtilisation.matin, true, 1, 1, ActiveTag.acne⟩

def produitPhotosensibleSoir : ProduitDerma :=
  ⟨"Serum BHA", Categorie.treatment, MomentUtilisation.soir, true, 1, 1, ActiveTag.acne⟩

def produitLeger : ProduitDerma :=
  ⟨"Gel leger", Categorie.moisturizer, MomentUtilisation.tous, false, 1, 2, ActiveTag.hydration⟩

def produitRiche : ProduitDerma :=
  ⟨"Baume riche", Categorie.moisturizer, MomentUtilisation.tous, false, 5, 1, ActiveTag.repair⟩

def produitMoyen : ProduitDerma :=
  ⟨"Creme moyenne", Categorie.moisturizer, MomentUtilisation.tous, false, 3, 1, ActiveTag.repair⟩

def nettoyantLeger : ProduitDerma :=
  ⟨"Nettoyant leger", Categorie.cleanser, MomentUtilisation.tous, false, 1, 2, ActiveTag.hydration⟩

def conditionsUVElevee : ConditionsEnvironnementales := ⟨5, 50, none⟩

def conditionsSeches : ConditionsEnvironnementales := ⟨1, 30, none⟩

def conditionsHumides : ConditionsEnvironnementales := ⟨1, 80, none⟩

def conditionsPollution : ConditionsEnvironnementales := ⟨1, 50, some 30⟩

/-- A store holding one caller-owned catalog at address 0. -/
def storeExemple : Store := [[produitRiche, produitLeger, produitNeutre]]

end Algorithme

namespace Historique

/-! ## History store (src/core/historique.py) -/

structure ProduitAnalyse where
  nom : String
  category : String
  moment : String
  active_tag : String
  exclu : Bool
  raison_exclusion : String
deriving DecidableEq, Repr

structure ConditionsAnalyse where
  ville : String
  pays : String
  indice_uv : ℚ
  niveau_uv : String
  humidite : ℚ
  niveau_humidite : String
  temperature : ℚ
  pm2_5 : Option ℚ
  niveau_pollution : String
deriving DecidableEq, Repr

/-- A stored analysis. The `timestamp` field holds the stored ISO string as seen
through `datetime.fromisoformat`: `some t` when it parses to the instant `t`
(measured in days on a linear clock), `none` when parsing raises. The id, date
and heure strings are the strftime renderings of the creation instant. -/
structure ResultatAnalyseHistorique where
  id : String
  date : String
  heure : String
  timestamp : Option Int
  conditions : ConditionsAnalyse
  produits_matin : List ProduitAnalyse
  produits_journee : List ProduitAnalyse
  produits_soir : List ProduitAnalyse
  alertes : List String
deriving DecidableEq, Repr

def DUREE_RECENTES_JOURS : Int := 14

/-- The in-memory state of `GestionnaireHistorique`. -/
structure EtatHistorique where
  analyses_recentes : List ResultatAnalyseHistorique
  analyses_archives : List ResultatAnalyseHistorique
deriving DecidableEq, Repr

/-- The rotation test `datetime.fromisoformat(analyse.timestamp) < date_limite`,
with a parse failure routed to the keep branch. -/
def aArchiver (date_limite : Int) (a : ResultatAnalyseHistorique) : Bool :=
  match a.timestamp with
  | some t => decide (t < date_limite)
  | none => false

/-- `GestionnaireHistorique._rotation_analyses` at instant `maintenant`. -/
def rotationAnalyses (maintenant : Int) (st : EtatHistorique) : EtatHistorique :=
  let date_limite := maintenant - DUREE_RECENTES_JOURS
  let analyses_a_archiver := st.analyses_recentes.filter (aArchiver date_limite)
  let analyses_a_garder := st.analyses_recentes.filter (fun a => !(aArchiver date_limite a))
  if analyses_a_archiver.isEmpty then st
  else ⟨analyses_a_garder, st.analyses_archives ++ analyses_a_archiver⟩

/-- `GestionnaireHistorique.ajouter_analyse` at instant `maintenant`: build the
entry, insert at the head of the recent partition, then rotate. -/
def ajouterAnalyse (maintenant : Int) (conditions : ConditionsAnalyse)
    (produits_matin produits_journee produits_soir : List ProduitAnalyse)
    (alertes : List String) (st : EtatHistorique) : EtatHistorique :=
  let analyse : ResultatAnalyseHistorique :=
    { id := toString maintenant
      date := toString maintenant
      heure := toString maintenant
      timestamp := some maintenant
      conditions := conditions
      produits_matin := produits_matin
      produits_journee := produits_journee
      produits_soir := produits_soir
      alertes := alertes }
  rotationAnalyses maintenant ⟨analyse :: st.analyses_recentes, st.analyses_archives⟩

/-- `obtenir_recentes`: `if limite:` is false for `None` and for `0`. -/
def obtenirRecentes (limite : Option Nat) (st : EtatHistorique) :
    List ResultatAnalyseHistorique :=
  match limite with
  | none => st.analyses_recentes
  | some 0 => st.analyses_recentes
  | some n => st.analyses_recentes.take n

def obtenirArchives (limite : Option Nat) (st : EtatHistorique) :
    List ResultatAnalyseHistorique :=
  match limite with
  | none => st.analyses_archives
  | some 0 => st.analyses_archives
  | some n => st.analyses_archives.take n

def obtenirToutes (st : EtatHistorique) : List ResultatAnalyseHistorique :=
  st.analyses_recentes ++ st.analyses_archives

/-- Adjacent most-recent-first check on the parsed timestamps (entries without a
parseable timestamp are not constrained). -/
def plusRecentOuEgal (a b : ResultatAnalyseHistorique) : Bool :=
  match a.timestamp, b.timestamp with
  | some ta, some tb => decide (tb ≤ ta)
  | _, _ => true

def triDecroissant : List ResultatAnalyseHistorique → Bool
  | [] => true
  | [_] => true
  | a :: b :: reste => plusRecentOuEgal a b && triDecroissant (b :: reste)

/-- A fixed conditions snapshot for concrete runs. -/
def condExemple : ConditionsAnalyse :=
  { ville := "Paris", pays := "France", indice_uv := 5, niveau_uv := "haut",
    humidite := 50, niveau_humidite := "moyen", temperature := 20, pm2_5 := none,
    niveau_pollution := "faible" }

/-- Empty store, append at day 0, rotate at day 15, append at day 15, rotate at
day 30: both rotations each move one entry into the archive. -/
def etatDeuxRotations : EtatHistorique :=
  rotationAnalyses 30
    (ajouterAnalyse 15 condExemple [] [] [] []
      (rotationAnalyses 15
        (ajouterAnalyse 0 condExemple [] [] [] [] ⟨[], []⟩)))

end Historique

namespace Cache

/-! ## Offline cache (src/core/cache.py) -/

/-- Payload plus metadata, `DonneesCachees`; `date_cache` is the save instant in
minutes on a linear clock, the payload type is abstract. -/
structure DonneesCachees (α : Type) where
  donnees : α
  date_cache : Int
  ttl_minutes : Int
deriving DecidableEq, Repr

def DonneesCachees.date_expiration {α : Type} (c : DonneesCachees α) : Int :=
  c.date_cache + c.ttl_minutes

def DonneesCachees.est_expire {α : Type} (maintenant : Int) (c : DonneesCachees α) : Bool :=
  decide (c.date_expiration < maintenant)

/-- The three cache files of `GestionnaireCache`. -/
inductive CleCache where
  | meteo_actuelle
  | previsions
  | derniere_routine
deriving DecidableEq, Repr

/-- The cache directory: one optional record per file, `none` when the file was
never written. -/
structure EtatCache (α : Type) where
  meteo_actuelle : Option (DonneesCachees α)
  previsions : Option (DonneesCachees α)
  derniere_routine : Option (DonneesCachees α)
deriving DecidableEq, Repr

def EtatCache.initial {α : Type} : EtatCache α := ⟨none, none, none⟩

def fichier {α : Type} (st : EtatCache α) : CleCache → Option (DonneesCachees α)
  | CleCache.meteo_actuelle => st.meteo_actuelle
  | CleCache.previsions => st.previsions
  | CleCache.derniere_routine => st.derniere_routine

/-- `sauvegarder_*`: overwrite the key's file with a fresh record. -/
def sauvegarder {α : Type} (k : CleCache) (donnees : α) (ttl_minutes maintenant : Int)
    (st : EtatCache α) : EtatCache α :=
  match k with
  | CleCache.meteo_actuelle =>
      { st with meteo_actuelle := some ⟨donnees, maintenant, ttl_minutes⟩ }
  | CleCache.previsions =>
      { st with previsions := some ⟨donnees, maintenant, ttl_minutes⟩ }
  | CleCache.derniere_routine =>
      { st with derniere_routine := some ⟨donnees, maintenant, ttl_minutes⟩ }

/-- `charger_*`: the stored record, or `none` when the file does not exist. -/
def charger {α : Type} (k : CleCache) (st : EtatCache α) : Option (DonneesCachees α) :=
  fichier st k

/-- `obtenir_*_avec_fallback`: the payload even if expired, with the cache flag. -/
def obtenirAvecFallback {α : Type} (k : CleCache) (st : EtatCache α) : Option α × Bool :=
  match charger k st with
  | none => (none, false)
  | some cache => (some cache.donnees, true)

/-- One save call, with the instant at which it happened. -/
structure OpSauvegarde (α : Type) where
  cle : CleCache
  donnees : α
  ttl_minutes : Int
  maintenant : Int
deriving DecidableEq, Repr

/-- Run a sequence of saves against the initially empty cache directory. -/
def executerSauvegardes {α : Type} (ops : List (OpSauvegarde α)) : EtatCache α :=
  ops.foldl (fun st op => sauvegarder op.cle op.donnees op.ttl_minutes op.maintenant st)
    EtatCache.initial

/-- The last save for a key in a sequence of operations, if any. -/
def derniereSauvegarde {α : Type} (k : CleCache) :
    List (OpSauvegarde α) → Option (OpSauvegarde α)
  | [] => none
  | op :: reste =>
      match derniereSauvegarde k reste with
      | some o => some o
      | none => if op.cle = k then some op else none

end Cache

namespace Models

/-! ## Product model with custom attributes (src/core/models.py) -/

/-- A scalar value of the free-form attribute map. -/
inductive ValeurAttribut where
  | chaine : String → ValeurAttribut
  | booleen : Bool → ValeurAttribut
  | entier : Int → ValeurAttribut
deriving DecidableEq, Repr

/-- A JSON-dict value as produced and consumed by `vers_dict`/`depuis_dict`. -/
inductive Valeur where
  | chaine : String → Valeur
  | booleen : Bool → Valeur
  | entier : Int → Valeur
  | table : List (String × ValeurAttribut) → Valeur
deriving DecidableEq, Repr

def asChaine : Valeur → Option String
  | Valeur.chaine s => some s
  | _ => none

def asBooleen : Valeur → Option Bool
  | Valeur.booleen b => some b
  | _ => none

def asEntier : Valeur → Option Int
  | Valeur.entier n => some n
  | _ => none

def asTable : Valeur → Option (List (String × ValeurAttribut))
  | Valeur.table t => some t
  | _ => none

end Models

def Categorie.value : Categorie → String
  | Categorie.cleanser => "cleanser"
  | Categorie.treatment => "treatment"
  | Categorie.moisturizer => "moisturizer"
  | Categorie.protection => "protection"

/-- `Categorie(x)`: enum lookup by value, `ValueError` modelled as `none`. -/
def Categorie.depuisValeur : Models.Valeur → Option Categorie
  | Models.Valeur.chaine "cleanser" => some Categorie.cleanser
  | Models.Valeur.chaine "treatment" => some Categorie.treatment
  | Models.Valeur.chaine "moisturizer" => some Categorie.moisturizer
  | Models.Valeur.chaine "protection" => some Categorie.protection
  | _ => none

def MomentUtilisation.value : MomentUtilisation → String
  | MomentUtilisation.matin => "matin"
  | MomentUtilisation.journee => "journee"
  | MomentUtilisation.soir => "soir"
  | MomentUtilisation.tous => "tous"

def MomentUtilisation.depuisValeur : Models.Valeur → Option MomentUtilisation
  | Models.Valeur.chaine "matin" => some MomentUtilisation.matin
  | Models.Valeur.chaine "journee" => some MomentUtilisation.journee
  | Models.Valeur.chaine "soir" => some MomentUtilisation.soir
  | Models.Valeur.chaine "tous" => some MomentUtilisation.tous
  | _ => none

def ActiveTag.value : ActiveTag → String
  | ActiveTag.acne => "acne"
  | ActiveTag.hydration => "hydration"
  | ActiveTag.repair => "repair"

def ActiveTag.depuisValeur : Models.Valeur → Option ActiveTag
  | Models.Valeur.chaine "acne" => some ActiveTag.acne
  | Models.Valeur.chaine "hydration" => some ActiveTag.hydration
  | Models.Valeur.chaine "repair" => some ActiveTag.repair
  | _ => none

namespace Models

/-- ProduitDerma of models.py, with the free-form attribute map. -/
structure ProduitDerma where
  nom : String
  category : Categorie
  moment : MomentUtilisation
  photosensitive : Bool
  occlusivity : Int
  cleansing_power : Int
  active_tag : ActiveTag
  custom_attributes : List (String × ValeurAttribut)
deriving DecidableEq, Repr

/-- The `__post_init__` validation. -/
def produitValide (p : ProduitDerma) : Bool :=
  decide (1 ≤ p.occlusivity) && decide (p.occlusivity ≤ 5)
    && decide (1 ≤ p.cleansing_power) && decide (p.cleansing_power ≤ 5)

/-- `ProduitDerma.vers_dict`: the `custom_attributes` key is written only when the
map is non-empty. -/
def ProduitDerma.vers_dict (p : ProduitDerma) : List (String × Valeur) :=
  [("nom", Valeur.chaine p.nom),
   ("category", Valeur.chaine p.category.value),
   ("moment", Valeur.chaine p.moment.value),
   ("photosensitive", Valeur.booleen p.photosensitive),
   ("occlusivity", Valeur.entier p.occlusivity),
   ("cleansing_power", Valeur.entier p.cleansing_power),
   ("active_tag", Valeur.chaine p.active_tag.value)]
    ++ (if p.custom_attributes.isEmpty then [] else
          [("custom_attributes", Valeur.table p.custom_attributes)])

/-- `ProduitDerma.depuis_dict`: required `nom` and `category` keys (a `KeyError`
or invalid enum value is `none`), defaults for the rest, and the constructor
validation of `__post_init__` at the end. -/
def ProduitDerma.depuis_dict (data : List (String × Valeur)) : Option ProduitDerma := do
  let vnom ← data.lookup "nom"
  let nom ← asChaine vnom
  let vcat ← data.lookup "category"
  let category ← Categorie.depuisValeur vcat
  let moment ← MomentUtilisation.depuisValeur ((data.lookup "moment").getD (Valeur.chaine "tous"))
  let photosensitive ← asBooleen ((data.lookup "photosensitive").getD (Valeur.booleen false))
  let occlusivity ← asEntier ((data.lookup "occlusivity").getD (Valeur.entier 3))
  let cleansing_power ← asEntier ((data.lookup "cleansing_power").getD (Valeur.entier 3))
  let active_tag ← ActiveTag.depuisValeur ((data.lookup "active_tag").getD (Valeur.chaine "hydration"))
  let custom_attributes ← asTable ((data.lookup "custom_attributes").getD (Valeur.table []))
  let p : ProduitDerma :=
    ⟨nom, category, moment, photosensitive, occlusivity, cleansing_power, active_tag,
      custom_attributes⟩
  if produitValide p then some p else none

/-- A concrete valid product with an empty custom-attributes map. -/
def produitExemple : ProduitDerma :=
  ⟨"CeraVe Nettoyant", Categorie.cleanser, MomentUtilisation.tous, false, 1, 3,
    ActiveTag.hydration, []⟩

end Models

namespace Algorithme

/-! ## Lemmas: threshold predicates -/

theorem environnement_sec_eq_false_of_humide (c : ConditionsEnvironnementales)
    (h : environnement_humide c = true) : environnement_sec c = false := by
  simp only [environnement_humide, SEUIL_HUMIDITE_HAUTE, decide_eq_true_eq] at h
  simp only [environnement_sec, SEUIL_HUMIDITE_BASSE, decide_eq_false_iff_not, not_lt]
  linarith

/-! ## Lemmas: the exclusion-reason dictionary -/

theorem lookup_dictSet_self (d : List (String × String)) (k v : String) :
    (dictSet d k v).lookup k = some v := by
  induction d with
  | nil => simp [dictSet, List.lookup]
  | cons kv0 reste ih =>
      obtain ⟨k0, v0⟩ := kv0
      by_cases h : k0 = k
      · subst h; simp [dictSet, List.lookup]
      · simp only [dictSet, if_neg h, List.lookup]
        have : (k == k0) = false := by
          simp [beq_iff_eq]; exact fun h2 => h h2.symm
        simp [this, ih]

theorem lookup_dictSet_isSome (d : List (String × String)) (k v k0 : String)
    (h : (d.lookup k0).isSome = true) : ((dictSet d k v).lookup k0).isSome = true := by
  induction d with
  | nil => simp [List.lookup] at h
  | cons kv1 reste ih =>
      obtain ⟨k1, v1⟩ := kv1
      by_cases hk : k1 = k
      · subst hk
        simp only [dictSet, if_pos rfl]
        by_cases he : k0 = k1
        · subst he; simp [List.lookup]
        · have hb : (k0 == k1) = false := by simp [beq_iff_eq, he]
          simp only [List.lookup, hb] at h ⊢
          exact h
      · simp only [dictSet, if_neg hk]
        by_cases he : k0 = k1
        · subst he; simp [List.lookup]
        · have hb : (k0 == k1) = false := by simp [beq_iff_eq, he]
          simp only [List.lookup, hb] at h ⊢
          exact ih h

theorem majRaisons_cons (d : List (String × String)) (p : ProduitDerma)
    (ps : List ProduitDerma) (motif : String) :
    majRaisons d (p :: ps) motif = majRaisons (dictSet d p.nom motif) ps motif := rfl

theorem majRaisons_conserve (ps : List ProduitDerma) (motif : String)
    (d : List (String × String)) (k : String) (h : (d.lookup k).isSome = true) :
    ((majRaisons d ps motif).lookup k).isSome = true := by
  induction ps generalizing d with
  | nil => exact h
  | cons p reste ih =>
      rw [majRaisons_cons]
      exact ih _ (lookup_dictSet_isSome _ _ _ _ h)

theorem lookup_majRaisons_isSome (ps : List ProduitDerma) (motif : String)
    (d : List (String × String)) (p : ProduitDerma) (h : p ∈ ps) :
    ((majRaisons d ps motif).lookup p.nom).isSome = true := by
  induction ps generalizing d with
  | nil => cases h
  | cons q reste ih =>
      rw [majRaisons_cons]
      rcases List.mem_cons.mp h with h1 | h1
      · subst h1
        exact majRaisons_conserve _ _ _ _ (by rw [lookup_dictSet_self]; rfl)
      · exact ih _ h1

theorem mem_dictSet (d : List (String × String)) (k v : String) (kv : String × String)
    (h : kv ∈ dictSet d k v) : kv.2 = v ∨ kv ∈ d := by
  induction d with
  | nil =>
      have hd : dictSet [] k v = [(k, v)] := rfl
      rw [hd] at h
      left; rw [List.mem_singleton.mp h]
  | cons kv0 reste ih =>
      obtain ⟨k0, v0⟩ := kv0
      by_cases hk : k0 = k
      · subst hk
        have hd : dictSet ((k0, v0) :: reste) k0 v = (k0, v) :: reste := by
          simp [dictSet]
        rw [hd] at h
        rcases List.mem_cons.mp h with h1 | h1
        · left; rw [h1]
        · right; exact List.mem_cons_of_mem _ h1
      · have hd : dictSet ((k0, v0) :: reste) k v = (k0, v0) :: dictSet reste k v := by
          simp [dictSet, hk]
        rw [hd] at h
        rcases List.mem_cons.mp h with h1 | h1
        · right; rw [h1]; exact List.mem_cons_self _ _
        · rcases ih h1 with h2 | h2
          · left; exact h2
          · right; exact List.mem_cons_of_mem _ h2

theorem mem_majRaisons (ps : List ProduitDerma) (motif : String)
    (d : List (String × String)) (kv : String × String) (h : kv ∈ majRaisons d ps motif) :
    kv.2 = motif ∨ kv ∈ d := by
  induction ps generalizing d with
  | nil => right; exact h
  | cons p reste ih =>
      rw [majRaisons_cons] at h
      rcases ih _ h with h1 | h1
      · left; exact h1
      · rcases mem_dictSet _ _ _ _ h1 with h2 | h2
        · left; exact h2
        · right; exact h2

/-! ## Lemmas: stage membership -/

theorem mem_trierParOcclusivite {l : List ProduitDerma} {p : ProduitDerma} :
    p ∈ trierParOcclusivite l ↔ p ∈ l :=
  List.mem_insertionSort relOcc

theorem mem_filtreTexture_fst (c : ConditionsEnvironnementales) (l : List ProduitDerma)
    (p : ProduitDerma) (h : p ∈ (filtreTexture c l).1) : p ∈ l := by
  unfold filtreTexture at h
  by_cases hsec : environnement_sec c = true
  · rw [if_pos hsec] at h
    exact mem_trierParOcclusivite.mp h
  · rw [if_neg hsec] at h
    by_cases hhum : environnement_humide c = true
    · rw [if_pos hhum] at h
      exact (List.mem_filter.mp h).1
    · rw [if_neg hhum] at h
      exact h

theorem mem_filtreSecurite_fst (c : ConditionsEnvironnementales) (l : List ProduitDerma)
    (p : ProduitDerma) (h : p ∈ (filtreSecurite c l).1) : p ∈ l := by
  unfold filtreSecurite at h
  by_cases huv : c.uv_critique = true
  · rw [if_pos huv] at h
    exact (List.mem_filter.mp h).1
  · rw [if_neg huv] at h
    exact h

end Algorithme

namespace Algorithme

/-! ## Lemmas: stability of the occlusivity sort -/

theorem filter_orderedInsert_egal (x : ProduitDerma) (l : List ProduitDerma) (v : Int)
    (hx : x.occlusivity = v) :
    (List.orderedInsert relOcc x l).filter (fun p => p.occlusivity == v)
      = x :: l.filter (fun p => p.occlusivity == v) := by
  induction l with
  | nil => simp [List.orderedInsert, List.filter, hx]
  | cons y ys ih =>
      by_cases h : relOcc x y
      · rw [List.orderedInsert, if_pos h, List.filter_cons_of_pos (by simp [hx])]
      · rw [List.orderedInsert, if_neg h]
        have hy : (y.occlusivity == v) = false := by
          have hlt : x.occlusivity < y.occlusivity := by
            simp only [relOcc, not_le] at h
            exact h
          simp only [beq_eq_false_iff_ne, ne_eq]
          omega
        rw [List.filter_cons_of_neg (by simp [hy]), ih,
          List.filter_cons_of_neg (by simp [hy])]

theorem filter_orderedInsert_ne (x : ProduitDerma) (l : List ProduitDerma) (v : Int)
    (hx : ¬ x.occlusivity = v) :
    (List.orderedInsert relOcc x l).filter (fun p => p.occlusivity == v)
      = l.filter (fun p => p.occlusivity == v) := by
  have hxb : (x.occlusivity == v) = false := by simp [beq_eq_false_iff_ne, hx]
  induction l with
  | nil => simp [List.orderedInsert, List.filter, hxb]
  | cons y ys ih =>
      by_cases h : relOcc x y
      · rw [List.orderedInsert, if_pos h, List.filter_cons_of_neg (by simp [hxb])]
      · rw [List.orderedInsert, if_neg h]
        by_cases hy : (y.occlusivity == v) = true
        · rw [List.filter_cons_of_pos (by simp [hy]), ih,
            List.filter_cons_of_pos (by simp [hy])]
        · rw [List.filter_cons_of_neg (by simp at hy; simp [hy]), ih,
            List.filter_cons_of_neg (by simp at hy; simp [hy])]

theorem filter_trierParOcclusivite (l : List ProduitDerma) (v : Int) :
    (trierParOcclusivite l).filter (fun p => p.occlusivity == v)
      = l.filter (fun p => p.occlusivity == v) := by
  induction l with
  | nil => rfl
  | cons x xs ih =>
      have hstep : trierParOcclusivite (x :: xs)
          = List.orderedInsert relOcc x (trierParOcclusivite xs) := rfl
      rw [hstep]
      by_cases hx : x.occlusivity = v
      · rw [filter_orderedInsert_egal _ _ _ hx, ih,
          List.filter_cons_of_pos (by simp [hx])]
      · rw [filter_orderedInsert_ne _ _ _ hx, ih,
          List.filter_cons_of_neg (by simp [hx])]

/-! ## Lemmas: the first-maximum behavior of Python max -/

theorem pyMax_cons (x y : ProduitDerma) (ys : List ProduitDerma) :
    pyMax x (y :: ys)
      = pyMax (if x.cleansing_power < y.cleansing_power then y else x) ys := rfl

theorem pyMax_premier_max (xs : List ProduitDerma) (x : ProduitDerma) :
    ∃ l1 l2, x :: xs = l1 ++ pyMax x xs :: l2
      ∧ (∀ p ∈ l1, p.cleansing_power < (pyMax x xs).cleansing_power)
      ∧ (∀ p ∈ x :: xs, p.cleansing_power ≤ (pyMax x xs).cleansing_power) := by
  induction xs generalizing x with
  | nil =>
      refine ⟨[], [], rfl, by simp, ?_⟩
      intro p hp
      rw [List.mem_singleton.mp hp]
      exact le_refl _
  | cons y ys ih =>
      rw [pyMax_cons]
      by_cases hxy : x.cleansing_power < y.cleansing_power
      · rw [if_pos hxy]
        obtain ⟨l1, l2, hdec, hpre, hmax⟩ := ih y
        have hyle : y.cleansing_power ≤ (pyMax y ys).cleansing_power :=
          hmax y (List.mem_cons_self _ _)
        refine ⟨x :: l1, l2, ?_, ?_, ?_⟩
        · rw [List.cons_append, ← hdec]
        · intro p hp
          rcases List.mem_cons.mp hp with h1 | h1
          · rw [h1]; exact lt_of_lt_of_le hxy hyle
          · exact hpre p h1
        · intro p hp
          rcases List.mem_cons.mp hp with h1 | h1
          · rw [h1]; exact le_of_lt (lt_of_lt_of_le hxy hyle)
          · exact hmax p h1
      · rw [if_neg hxy]
        have hyx : y.cleansing_power ≤ x.cleansing_power := not_lt.mp hxy
        obtain ⟨l1, l2, hdec, hpre, hmax⟩ := ih x
        cases l1 with
        | nil =>
            rw [List.nil_append] at hdec
            injection hdec with hx hl2
            refine ⟨[], y :: ys, ?_, by simp, ?_⟩
            · rw [List.nil_append, ← hx]
            · intro p hp
              rcases List.mem_cons.mp hp with h1 | h1
              · rw [h1, ← hx]
              · rcases List.mem_cons.mp h1 with h2 | h2
                · rw [h2, ← hx]; exact hyx
                · exact hmax p (List.mem_cons_of_mem _ h2)
        | cons z t =>
            rw [List.cons_append] at hdec
            injection hdec with hxz hys
            have hxlt : x.cleansing_power < (pyMax x ys).cleansing_power := by
              have hz := hpre z (List.mem_cons_self _ _)
              rw [← hxz] at hz
              exact hz
            refine ⟨x :: y :: t, l2, ?_, ?_, ?_⟩
            · rw [List.cons_append, List.cons_append, ← hys]
            · intro p hp
              rcases List.mem_cons.mp hp with h1 | h1
              · rw [h1]; exact hxlt
              · rcases List.mem_cons.mp h1 with h2 | h2
                · rw [h2]; exact lt_of_le_of_lt hyx hxlt
                · exact hpre p (List.mem_cons_of_mem _ h2)
            · intro p hp
              rcases List.mem_cons.mp hp with h1 | h1
              · rw [h1]; exact hmax x (List.mem_cons_self _ _)
              · rcases List.mem_cons.mp h1 with h2 | h2
                · rw [h2]
                  exact le_trans hyx (hmax x (List.mem_cons_self _ _))
                · exact hmax p (List.mem_cons_of_mem _ h2)

end Algorithme

namespace Algorithme

/-! ## Unfolding equations for `analyser` -/

theorem analyser_produits_exclus (l : List ProduitDerma) (c : ConditionsEnvironnementales) :
    (analyser l c).produits_exclus
      = (filtreSecurite c l).2 ++ (filtreTexture c (filtreSecurite c l).1).2 := rfl

theorem analyser_raisons (l : List ProduitDerma) (c : ConditionsEnvironnementales) :
    (analyser l c).raisons_exclusion
      = majRaisons (majRaisons [] (filtreSecurite c l).2 motifUV)
          (filtreTexture c (filtreSecurite c l).1).2 motifHumidite := rfl

theorem analyser_matin_produits (l : List ProduitDerma) (c : ConditionsEnvironnementales) :
    (analyser l c).matin.produits
      = filtrerParMoment (filtreTexture c (filtreSecurite c l).1).1 MomentUtilisation.matin := rfl

theorem analyser_journee_produits (l : List ProduitDerma) (c : ConditionsEnvironnementales) :
    (analyser l c).journee.produits
      = filtrerParMoment (filtreTexture c (filtreSecurite c l).1).1 MomentUtilisation.journee := rfl

theorem analyser_soir_produits (l : List ProduitDerma) (c : ConditionsEnvironnementales) :
    (analyser l c).soir.produits
      = filtrerParMoment (filtreTexture c (filtreSecurite c l).1).1 MomentUtilisation.soir := rfl

theorem analyser_filtres (l : List ProduitDerma) (c : ConditionsEnvironnementales) :
    (analyser l c).filtres_appliques = descripteurs c := rfl

/-- A product missing from the working set after stage B is in no bucket. -/
theorem absent_des_moments (l : List ProduitDerma) (c : ConditionsEnvironnementales)
    (p : ProduitDerma) (h : p ∉ (filtreTexture c (filtreSecurite c l).1).1) :
    p ∉ (analyser l c).matin.produits ∧ p ∉ (analyser l c).journee.produits
      ∧ p ∉ (analyser l c).soir.produits := by
  refine ⟨?_, ?_, ?_⟩
  · rw [analyser_matin_produits]
    intro hmem
    exact h (List.mem_filter.mp hmem).1
  · rw [analyser_journee_produits]
    intro hmem
    exact h (List.mem_filter.mp hmem).1
  · rw [analyser_soir_produits]
    intro hmem
    exact h (List.mem_filter.mp hmem).1

/-- C1: with `uv_index > 3`, every photosensitizing product used matin or journee is
removed from the working set (hence in no bucket) and recorded as excluded with a
reason; photosensitizing products used soir or tous pass the UV filter untouched;
and with `uv_index <= 3` no product is excluded for photosensitivity. -/
theorem C1_filtre_securite_uv (l : List ProduitDerma) (c : ConditionsEnvironnementales)
    (p : ProduitDerma) (hmem : p ∈ l) (hph : p.photosensitive = true) :
    (c.uv_critique = true →
      (p.moment = MomentUtilisation.matin ∨ p.moment = MomentUtilisation.journee) →
        p ∈ (analyser l c).produits_exclus
      ∧ ((analyser l c).raisons_exclusion.lookup p.nom).isSome = true
      ∧ p ∉ (analyser l c).matin.produits
      ∧ p ∉ (analyser l c).journee.produits
      ∧ p ∉ (analyser l c).soir.produits)
  ∧ ((p.moment = MomentUtilisation.soir ∨ p.moment = MomentUtilisation.tous) →
        p ∈ (filtreSecurite c l).1)
  ∧ (c.uv_critique = false →
        ∀ kv ∈ (analyser l c).raisons_exclusion, kv.2 ≠ motifUV) := by
  refine ⟨?_, ?_, ?_⟩
  · intro huv hmom
    have hex : exclusionUV p = true := by
      rcases hmom with h | h <;> simp [exclusionUV, hph, h]
    have hfs : filtreSecurite c l
        = (l.filter (fun q => !(exclusionUV q)), l.filter exclusionUV) := by
      simp [filtreSecurite, huv]
    have hsA2 : p ∈ (filtreSecurite c l).2 := by
      rw [hfs]
      exact List.mem_filter.mpr ⟨hmem, hex⟩
    have hsA1 : p ∉ (filtreSecurite c l).1 := by
      rw [hfs]
      intro hcontra
      have := (List.mem_filter.mp hcontra).2
      rw [hex] at this
      cases this
    have hsB1 : p ∉ (filtreTexture c (filtreSecurite c l).1).1 := by
      intro hcontra
      exact hsA1 (mem_filtreTexture_fst _ _ _ hcontra)
    obtain ⟨hm1, hm2, hm3⟩ := absent_des_moments l c p hsB1
    refine ⟨?_, ?_, hm1, hm2, hm3⟩
    · rw [analyser_produits_exclus]
      exact List.mem_append_left _ hsA2
    · rw [analyser_raisons]
      exact majRaisons_conserve _ _ _ _ (lookup_majRaisons_isSome _ _ _ _ hsA2)
  · intro hmom
    by_cases huv : c.uv_critique = true
    · have hex : exclusionUV p = false := by
        rcases hmom with h | h <;> simp [exclusionUV, hph, h]
      have hfs : filtreSecurite c l
          = (l.filter (fun q => !(exclusionUV q)), l.filter exclusionUV) := by
        simp [filtreSecurite, huv]
      rw [hfs]
      exact List.mem_filter.mpr ⟨hmem, by rw [hex]; rfl⟩
    · have hfs : filtreSecurite c l = (l, []) := by
        simp [filtreSecurite, huv]
      rw [hfs]
      exact hmem
  · intro huv kv hkv
    have hfs : filtreSecurite c l = (l, []) := by
      simp [filtreSecurite, huv]
    rw [analyser_raisons, hfs] at hkv
    rcases mem_majRaisons _ _ _ _ hkv with hv | hv
    · rw [hv]
      simp [motifHumidite, motifUV]
    · cases hv

/-- C1 witness: a photosensitive morning product under uv 5 is excluded, has a
recorded reason, and is in no bucket. -/
theorem C1_temoin :
    produitPhotosensibleMatin
        ∈ (analyser [produitPhotosensibleMatin] conditionsUVElevee).produits_exclus
  ∧ ((analyser [produitPhotosensibleMatin] conditionsUVElevee).raisons_exclusion.lookup
        produitPhotosensibleMatin.nom).isSome = true
  ∧ produitPhotosensibleMatin
        ∉ (analyser [produitPhotosensibleMatin] conditionsUVElevee).matin.produits := by
  have h := C1_filtre_securite_uv [produitPhotosensibleMatin] conditionsUVElevee
    produitPhotosensibleMatin (List.mem_singleton.mpr rfl) rfl
  have h1 := h.1 (by decide) (Or.inl rfl)
  exact ⟨h1.1, h1.2.1, h1.2.2.1⟩

end Algorithme

namespace Algorithme

/-- C2 counterexample: with uv 5 and a catalog holding only a non-photosensitive
product, the UV stage removes nothing and changes nothing, yet the UV descriptor is
appended; likewise pm2_5 30 with no cleanser in the catalog still appends the PM2.5
descriptor. -/
theorem C2_contre_exemple :
    (filtreSecurite conditionsUVElevee [produitNeutre]).1 = [produitNeutre]
  ∧ (analyser [produitNeutre] conditionsUVElevee).produits_exclus = []
  ∧ Descripteur.uv ∈ (analyser [produitNeutre] conditionsUVElevee).filtres_appliques
  ∧ nettoyantsDe
      (filtreTexture conditionsPollution (filtreSecurite conditionsPollution [produitRiche]).1).1
      = []
  ∧ Descripteur.pm25 ∈ (analyser [produitRiche] conditionsPollution).filtres_appliques := by
  refine ⟨?_, ?_, ?_, ?_, ?_⟩ <;> decide

/-- C2 as amended: a stage descriptor is appended exactly when that stage's threshold
condition holds, independently of whether the stage changes the working set. -/
theorem C2_descripteurs_seuils (l : List ProduitDerma) (c : ConditionsEnvironnementales) :
    (Descripteur.uv ∈ (analyser l c).filtres_appliques ↔ c.uv_critique = true)
  ∧ (Descripteur.humiditeBasse ∈ (analyser l c).filtres_appliques
      ↔ environnement_sec c = true)
  ∧ (Descripteur.humiditeHaute ∈ (analyser l c).filtres_appliques
      ↔ environnement_humide c = true)
  ∧ (Descripteur.pm25 ∈ (analyser l c).filtres_appliques ↔ pollution_elevee c = true) := by
  rw [analyser_filtres]
  cases hhum : environnement_humide c with
  | true =>
      have hsec := environnement_sec_eq_false_of_humide c hhum
      cases huv : c.uv_critique <;> cases hpol : pollution_elevee c <;>
        simp [descripteurs, huv, hsec, hhum, hpol]
  | false =>
      cases hsec : environnement_sec c <;> cases huv : c.uv_critique <;>
        cases hpol : pollution_elevee c <;>
        simp [descripteurs, huv, hsec, hhum, hpol]

/-- C3: in a dry snapshot (humidity below 45) the texture stage removes nothing:
its output is a permutation of its input, ordered by non-increasing occlusivity, and
stable — for every occlusivity value the subsequence at that value is unchanged. -/
theorem C3_tri_stable_occlusivite (l : List ProduitDerma) (c : ConditionsEnvironnementales)
    (hsec : environnement_sec c = true) :
    List.Perm ((filtreTexture c l).1) l
  ∧ (filtreTexture c l).2 = []
  ∧ List.Pairwise (fun a b => b.occlusivity ≤ a.occlusivity) ((filtreTexture c l).1)
  ∧ ∀ v : Int, ((filtreTexture c l).1).filter (fun p => p.occlusivity == v)
      = l.filter (fun p => p.occlusivity == v) := by
  have hft : filtreTexture c l = (trierParOcclusivite l, []) := by
    simp [filtreTexture, hsec]
  rw [hft]
  refine ⟨List.perm_insertionSort relOcc l, rfl, ?_, fun v => filter_trierParOcclusivite l v⟩
  exact List.sorted_insertionSort relOcc l

/-- C3 witness: a concrete dry run with an occlusivity tie between the first and the
last product. -/
theorem C3_temoin :
    List.Perm
      ((filtreTexture conditionsSeches
          [produitLeger, produitRiche, produitMoyen, nettoyantLeger]).1)
      [produitLeger, produitRiche, produitMoyen, nettoyantLeger]
  ∧ ((filtreTexture conditionsSeches
        [produitLeger, produitRiche, produitMoyen, nettoyantLeger]).1).filter
        (fun p => p.occlusivity == (1 : Int))
      = [produitLeger, produitRiche, produitMoyen, nettoyantLeger].filter
        (fun p => p.occlusivity == (1 : Int)) := by
  have h := C3_tri_stable_occlusivite
    [produitLeger, produitRiche, produitMoyen, nettoyantLeger] conditionsSeches (by decide)
  exact ⟨h.1, h.2.2.2 1⟩

/-- C4: in a humid snapshot (humidity above 70), every non-cleanser of occlusivity at
most 2 that reaches the texture stage is removed and recorded as excluded (hence in
no bucket), and a cleanser reaching the texture stage is never removed by it. -/
theorem C4_filtre_texture_humide (l : List ProduitDerma) (c : ConditionsEnvironnementales)
    (p : ProduitDerma) (hhum : environnement_humide c = true)
    (hatteint : p ∈ (filtreSecurite c l).1) :
    (p.occlusivity ≤ 2 → p.category ≠ Categorie.cleanser →
        p ∈ (analyser l c).produits_exclus
      ∧ ((analyser l c).raisons_exclusion.lookup p.nom).isSome = true
      ∧ p ∉ (analyser l c).matin.produits
      ∧ p ∉ (analyser l c).journee.produits
      ∧ p ∉ (analyser l c).soir.produits)
  ∧ (p.category = Categorie.cleanser →
        p ∈ (filtreTexture c (filtreSecurite c l).1).1) := by
  have hsec := environnement_sec_eq_false_of_humide c hhum
  have hft : ∀ m : List ProduitDerma, filtreTexture c m
      = (m.filter (fun q => !(exclusionHumidite q)), m.filter exclusionHumidite) := by
    intro m
    simp [filtreTexture, hsec, hhum]
  refine ⟨?_, ?_⟩
  · intro hocc hcat
    have hex : exclusionHumidite p = true := by
      simp [exclusionHumidite, hocc, hcat]
    have hsB2 : p ∈ (filtreTexture c (filtreSecurite c l).1).2 := by
      rw [hft]
      exact List.mem_filter.mpr ⟨hatteint, hex⟩
    have hsB1 : p ∉ (filtreTexture c (filtreSecurite c l).1).1 := by
      rw [hft]
      intro hcontra
      have := (List.mem_filter.mp hcontra).2
      rw [hex] at this
      cases this
    obtain ⟨hm1, hm2, hm3⟩ := absent_des_moments l c p hsB1
    refine ⟨?_, ?_, hm1, hm2, hm3⟩
    · rw [analyser_produits_exclus]
      exact List.mem_append_right _ hsB2
    · rw [analyser_raisons]
      exact lookup_majRaisons_isSome _ _ _ _ hsB2
  · intro hcat
    have hex : exclusionHumidite p = false := by
      simp [exclusionHumidite, hcat]
    rw [hft]
    exact List.mem_filter.mpr ⟨hatteint, by rw [hex]; rfl⟩

/-- C4 witness: under humidity 80 the light non-cleanser is excluded with a reason
and missing from every bucket, while the light cleanser passes the texture stage. -/
theorem C4_temoin :
    produitLeger ∈ (analyser [produitLeger, nettoyantLeger] conditionsHumides).produits_exclus
  ∧ produitLeger ∉ (analyser [produitLeger, nettoyantLeger] conditionsHumides).matin.produits
  ∧ nettoyantLeger ∈ (filtreTexture conditionsHumides
      (filtreSecurite conditionsHumides [produitLeger, nettoyantLeger]).1).1 := by
  have hl := C4_filtre_texture_humide [produitLeger, nettoyantLeger] conditionsHumides
    produitLeger (by decide) (by decide)
  have hn := C4_filtre_texture_humide [produitLeger, nettoyantLeger] conditionsHumides
    nettoyantLeger (by decide) (by decide)
  have h1 := hl.1 (by decide) (by decide)
  exact ⟨h1.1, h1.2.2.1, hn.2 rfl⟩

end Algorithme

namespace Algorithme

/-- C5: the optimal-cleanser designation exists exactly when pollution is high
(pm2_5 non-null and above 25) and a cleanser remains in the working set; it sits on
the matin and soir buckets (journee always gets none); and the designated product is
the first remaining cleanser of maximal cleansing power. -/
theorem C5_nettoyant_optimal (l : List ProduitDerma) (c : ConditionsEnvironnementales) :
    (analyser l c).journee.nettoyant_optimal = none
  ∧ (analyser l c).soir.nettoyant_optimal = (analyser l c).matin.nettoyant_optimal
  ∧ ((analyser l c).matin.nettoyant_optimal.isSome = true ↔
      (pollution_elevee c = true
        ∧ nettoyantsDe ((filtreTexture c (filtreSecurite c l).1).1) ≠ []))
  ∧ ∀ n, (analyser l c).matin.nettoyant_optimal = some n →
      n ∈ nettoyantsDe ((filtreTexture c (filtreSecurite c l).1).1)
      ∧ (∀ q ∈ nettoyantsDe ((filtreTexture c (filtreSecurite c l).1).1),
          q.cleansing_power ≤ n.cleansing_power)
      ∧ ∃ l1 l2, nettoyantsDe ((filtreTexture c (filtreSecurite c l).1).1)
            = l1 ++ n :: l2
          ∧ ∀ q ∈ l1, q.cleansing_power < n.cleansing_power := by
  have hmatin : (analyser l c).matin.nettoyant_optimal
      = nettoyantOptimal c ((filtreTexture c (filtreSecurite c l).1).1) := rfl
  refine ⟨rfl, rfl, ?_, ?_⟩
  · rw [hmatin]
    cases hpol : pollution_elevee c with
    | false => simp [nettoyantOptimal, hpol]
    | true =>
        cases hn : nettoyantsDe ((filtreTexture c (filtreSecurite c l).1).1) with
        | nil => simp [nettoyantOptimal, hpol, hn, maxNettoyant]
        | cons x xs => simp [nettoyantOptimal, hpol, hn, maxNettoyant]
  · intro n hn
    rw [hmatin] at hn
    cases hpol : pollution_elevee c with
    | false => simp [nettoyantOptimal, hpol] at hn
    | true =>
        rw [nettoyantOptimal, if_pos hpol] at hn
        cases hliste : nettoyantsDe ((filtreTexture c (filtreSecurite c l).1).1) with
        | nil => rw [hliste] at hn; cases hn
        | cons x xs =>
            rw [hliste] at hn
            rw [maxNettoyant] at hn
            injection hn with hn
            obtain ⟨l1, l2, hdec, hpre, hmax⟩ := pyMax_premier_max xs x
            rw [hn] at hdec hpre hmax
            refine ⟨?_, ?_, l1, l2, ?_, hpre⟩
            · rw [hdec]
              exact List.mem_append_right _ (List.mem_cons_self _ _)
            · intro q hq
              exact hmax q hq
            · exact hdec

end Algorithme

namespace Historique

/-- C7: rotation keeps in the recent partition exactly the entries whose timestamp is
unparseable or not older than the retention window, in order; every other entry is
appended, unchanged and in order, to the end of the archive; no entry is dropped. -/
theorem C7_rotation_retention (st : EtatHistorique) (maintenant : Int) :
    (rotationAnalyses maintenant st).analyses_recentes
      = st.analyses_recentes.filter
          (fun a => match a.timestamp with
            | none => true
            | some t => decide (maintenant - DUREE_RECENTES_JOURS ≤ t))
  ∧ (rotationAnalyses maintenant st).analyses_archives
      = st.analyses_archives ++ st.analyses_recentes.filter
          (fun a => match a.timestamp with
            | none => false
            | some t => decide (t < maintenant - DUREE_RECENTES_JOURS))
  ∧ List.Perm
      ((rotationAnalyses maintenant st).analyses_recentes
        ++ (rotationAnalyses maintenant st).analyses_archives)
      (st.analyses_recentes ++ st.analyses_archives) := by
  have hgarde : st.analyses_recentes.filter
        (fun a => !(aArchiver (maintenant - DUREE_RECENTES_JOURS) a))
      = st.analyses_recentes.filter
          (fun a => match a.timestamp with
            | none => true
            | some t => decide (maintenant - DUREE_RECENTES_JOURS ≤ t)) := by
    apply List.filter_congr
    intro a _
    cases ht : a.timestamp with
    | none => simp [aArchiver, ht]
    | some t =>
        simp only [aArchiver, ht]
        rw [← decide_not, decide_eq_decide]
        exact not_lt
  have harch : st.analyses_recentes.filter (aArchiver (maintenant - DUREE_RECENTES_JOURS))
      = st.analyses_recentes.filter
          (fun a => match a.timestamp with
            | none => false
            | some t => decide (t < maintenant - DUREE_RECENTES_JOURS)) := by
    apply List.filter_congr
    intro a _
    cases ht : a.timestamp with
    | none => simp [aArchiver, ht]
    | some t => simp [aArchiver, ht]
  have hperm : List.Perm
      (st.analyses_recentes.filter
          (fun a => !(aArchiver (maintenant - DUREE_RECENTES_JOURS) a))
        ++ st.analyses_recentes.filter (aArchiver (maintenant - DUREE_RECENTES_JOURS)))
      st.analyses_recentes :=
    (List.perm_append_comm).trans
      (List.filter_append_perm (aArchiver (maintenant - DUREE_RECENTES_JOURS))
        st.analyses_recentes)
  by_cases he : (st.analyses_recentes.filter
      (aArchiver (maintenant - DUREE_RECENTES_JOURS))).isEmpty = true
  · have hnil : st.analyses_recentes.filter
        (aArchiver (maintenant - DUREE_RECENTES_JOURS)) = [] :=
      List.isEmpty_iff.mp he
    have hrot : rotationAnalyses maintenant st = st := by
      simp only [rotationAnalyses, he, if_true]
    have hself : st.analyses_recentes.filter
        (fun a => !(aArchiver (maintenant - DUREE_RECENTES_JOURS) a))
        = st.analyses_recentes := by
      apply List.filter_eq_self.mpr
      intro a ha
      have := List.filter_eq_nil_iff.mp hnil a ha
      simp only [Bool.not_eq_true] at this ⊢
      simp [this]
    refine ⟨?_, ?_, by rw [hrot]⟩
    · rw [hrot, ← hgarde, hself]
    · rw [hrot, ← harch, hnil, List.append_nil]
  · have hrot : rotationAnalyses maintenant st
        = ⟨st.analyses_recentes.filter
            (fun a => !(aArchiver (maintenant - DUREE_RECENTES_JOURS) a)),
          st.analyses_archives
            ++ st.analyses_recentes.filter
                (aArchiver (maintenant - DUREE_RECENTES_JOURS))⟩ := by
      simp only [rotationAnalyses, he, if_false]
      rfl
    refine ⟨by rw [hrot, hgarde], by rw [hrot, harch], ?_⟩
    rw [hrot]
    refine List.Perm.trans (List.Perm.append_left _ (List.perm_append_comm)) ?_
    rw [← List.append_assoc]
    exact List.Perm.append_right _ hperm

/-- C6 (code-bug evaluation): after two rotations that each archive one entry, the
archive holds the day-0 entry before the day-15 entry, so neither the archive view
nor the all view is in most-recent-first order. -/
theorem C6_archives_ordre_viole :
    (obtenirArchives none etatDeuxRotations).map
        (fun a => a.timestamp) = [some 0, some 15]
  ∧ triDecroissant (obtenirArchives none etatDeuxRotations) = false
  ∧ triDecroissant (obtenirToutes etatDeuxRotations) = false := by
  refine ⟨rfl, rfl, rfl⟩

end Historique

namespace Cache

/-! ## Lemmas: the cache -/

theorem fichier_initial {α : Type} (k : CleCache) :
    fichier (EtatCache.initial : EtatCache α) k = none := by
  cases k <;> rfl

theorem fichier_sauvegarder {α : Type} (k0 k : CleCache) (d : α) (ttl maintenant : Int)
    (st : EtatCache α) :
    fichier (sauvegarder k0 d ttl maintenant st) k
      = if k0 = k then some ⟨d, maintenant, ttl⟩ else fichier st k := by
  cases k0 <;> cases k <;> simp [sauvegarder, fichier]

theorem fichier_foldl {α : Type} (ops : List (OpSauvegarde α)) (st : EtatCache α)
    (k : CleCache) :
    fichier (ops.foldl
        (fun s op => sauvegarder op.cle op.donnees op.ttl_minutes op.maintenant s) st) k
      = match derniereSauvegarde k ops with
        | some op => some ⟨op.donnees, op.maintenant, op.ttl_minutes⟩
        | none => fichier st k := by
  induction ops generalizing st with
  | nil => rfl
  | cons op reste ih =>
      rw [List.foldl_cons, ih _]
      cases hd : derniereSauvegarde k reste with
      | some o => simp [derniereSauvegarde, hd]
      | none =>
          rw [fichier_sauvegarder]
          by_cases hk : op.cle = k
          · simp [derniereSauvegarde, hd, hk]
          · simp [derniereSauvegarde, hd, hk]

/-- C8: after any sequence of saves from the empty cache directory, the fallback
loader returns the most recently saved payload for the key with the cache flag set,
whatever the record's TTL or age; if no save ever targeted the key it returns
(none, false). -/
theorem C8_fallback_dernier_enregistrement (α : Type) (ops : List (OpSauvegarde α))
    (k : CleCache) :
    obtenirAvecFallback k (executerSauvegardes ops)
      = match derniereSauvegarde k ops with
        | some op => (some op.donnees, true)
        | none => (none, false) := by
  have hch : charger k (executerSauvegardes ops)
      = match derniereSauvegarde k ops with
        | some op => some ⟨op.donnees, op.maintenant, op.ttl_minutes⟩
        | none => none := by
    rw [charger, executerSauvegardes, fichier_foldl]
    cases hd : derniereSauvegarde k ops with
    | some o => rfl
    | none => exact fichier_initial k
  rw [obtenirAvecFallback, hch]
  cases hd : derniereSauvegarde k ops with
  | some o => rfl
  | none => rfl

end Cache

namespace Models

/-- Deserialising the serialised form reduces to the constructor validation. -/
theorem depuis_dict_vers_dict (p : ProduitDerma) :
    ProduitDerma.depuis_dict (ProduitDerma.vers_dict p)
      = if produitValide p then some p else none := by
  obtain ⟨nom, category, moment, photosensitive, occ, pw, tag, attrs⟩ := p
  cases category <;> cases moment <;> cases tag <;> cases attrs <;> rfl

/-- C9: a valid product (occlusivity and cleansing power within 1..5) serialises and
deserialises to itself field for field, the empty custom-attributes map included. -/
theorem C9_aller_retour (p : ProduitDerma) (h : produitValide p = true) :
    ProduitDerma.depuis_dict (ProduitDerma.vers_dict p) = some p := by
  rw [depuis_dict_vers_dict, if_pos h]

/-- C9 witness: the concrete valid product with an empty attribute map round-trips. -/
theorem C9_temoin :
    ProduitDerma.depuis_dict (ProduitDerma.vers_dict produitExemple)
      = some produitExemple :=
  C9_aller_retour produitExemple (by decide)

end Models

/-! ## Lemmas: the store of Python list objects -/

theorem lire_allouer_self (st : Store) (v : List Algorithme.ProduitDerma) :
    lire (st ++ [v]) st.length = v := by
  simp [lire, List.getD_eq_getElem?_getD, List.getElem?_concat_length]

theorem lire_allouer_lt (st : Store) (v : List Algorithme.ProduitDerma) (r : Nat)
    (h : r < st.length) : lire (st ++ [v]) r = lire st r := by
  simp [lire, List.getD_eq_getElem?_getD, List.getElem?_append_left h]

theorem lire_ecrire_self (st : Store) (r : Nat) (v : List Algorithme.ProduitDerma)
    (h : r < st.length) : lire (ecrire st r v) r = v := by
  simp [lire, ecrire, List.getD_eq_getElem?_getD, List.getElem?_set_self h]

theorem lire_ecrire_ne (st : Store) (r : Nat) (v : List Algorithme.ProduitDerma)
    (r0 : Nat) (h : r ≠ r0) : lire (ecrire st r v) r0 = lire st r0 := by
  simp [lire, ecrire, List.getD_eq_getElem?_getD, List.getElem?_set_ne h]

theorem lire_ecrire_allouer (st : Store) (v w : List Algorithme.ProduitDerma) :
    lire (ecrire (st ++ [v]) st.length w) st.length = w :=
  lire_ecrire_self (st ++ [v]) st.length w (by simp)

namespace Algorithme

/-- The decomposition of `analyserEtat`: its result is the pure `analyser` of the
stored catalog, the store only grows, and every pre-existing reference — the stored
catalog and the caller's list included — is left unchanged. -/
theorem analyserEtat_spec (m : MoteurDecision) (c : ConditionsEnvironnementales)
    (st : Store) :
    (m.analyserEtat c st).1 = analyser (lire st m.produits_originaux) c
  ∧ st.length ≤ (m.analyserEtat c st).2.length
  ∧ ∀ r, r < st.length → lire (m.analyserEtat c st).2 r = lire st r := by
  by_cases huv : c.uv_critique = true
  · by_cases hsec : environnement_sec c = true
    · refine ⟨?_, ?_, ?_⟩
      · simp only [MoteurDecision.analyserEtat, analyser, allouer, huv, hsec, if_true,
          lire_allouer_self, lire_ecrire_allouer, filtreSecurite, filtreTexture]
      · simp only [MoteurDecision.analyserEtat, allouer, huv, hsec, if_true, ecrire,
          List.length_set, List.length_append, List.length_singleton]
        omega
      · intro r hr
        simp only [MoteurDecision.analyserEtat, allouer, huv, hsec, if_true,
          lire_allouer_self]
        rw [lire_ecrire_ne _ _ _ _ (by simp; omega),
          lire_allouer_lt _ _ _ (by simp; omega), lire_allouer_lt _ _ _ hr]
    · refine ⟨?_, ?_, ?_⟩
      · simp only [MoteurDecision.analyserEtat, analyser, allouer, huv, hsec, if_true,
          if_false, Bool.false_eq_true, lire_allouer_self, filtreSecurite, filtreTexture]
      · simp only [MoteurDecision.analyserEtat, allouer, huv, hsec, if_true, if_false,
          Bool.false_eq_true, List.length_append, List.length_singleton]
        omega
      · intro r hr
        simp only [MoteurDecision.analyserEtat, allouer, huv, hsec, if_true, if_false,
          Bool.false_eq_true, lire_allouer_self]
        rw [lire_allouer_lt _ _ _ (by simp; omega), lire_allouer_lt _ _ _ hr]
  · have huv2 : c.uv_critique = false := by
      revert huv
      cases c.uv_critique <;> simp
    by_cases hsec : environnement_sec c = true
    · refine ⟨?_, ?_, ?_⟩
      · simp only [MoteurDecision.analyserEtat, analyser, allouer, huv2, hsec, if_true,
          if_false, Bool.false_eq_true, lire_allouer_self, lire_ecrire_allouer,
          filtreSecurite, filtreTexture]
      · simp only [MoteurDecision.analyserEtat, allouer, huv2, hsec, if_true, if_false,
          Bool.false_eq_true, ecrire, List.length_set, List.length_append,
          List.length_singleton]
        omega
      · intro r hr
        simp only [MoteurDecision.analyserEtat, allouer, huv2, hsec, if_true, if_false,
          Bool.false_eq_true, lire_allouer_self]
        rw [lire_ecrire_ne _ _ _ _ (by omega), lire_allouer_lt _ _ _ hr]
    · refine ⟨?_, ?_, ?_⟩
      · simp only [MoteurDecision.analyserEtat, analyser, allouer, huv2, hsec, if_false,
          Bool.false_eq_true, lire_allouer_self, filtreSecurite, filtreTexture]
      · simp only [MoteurDecision.analyserEtat, allouer, huv2, hsec, if_false,
          Bool.false_eq_true, List.length_append, List.length_singleton]
        omega
      · intro r hr
        simp only [MoteurDecision.analyserEtat, allouer, huv2, hsec, if_false,
          Bool.false_eq_true, lire_allouer_self]
        rw [lire_allouer_lt _ _ _ hr]

end Algorithme

namespace Algorithme

/-- C10: `analyser` leaves the engine's stored catalog — and every other list the
caller holds a valid reference to — unchanged in content and order: the in-place
occlusivity sort of the dry branch acts on a per-call copy, so a second call under
the same conditions observes the same catalog and returns the same result. -/
theorem C10_analyser_sans_effet (st : Store) (m : MoteurDecision)
    (c : ConditionsEnvironnementales) (h : m.produits_originaux < st.length) :
    lire (m.analyserEtat c st).2 m.produits_originaux = lire st m.produits_originaux
  ∧ (∀ r, r < st.length → lire (m.analyserEtat c st).2 r = lire st r)
  ∧ (m.analyserEtat c ((m.analyserEtat c st).2)).1 = (m.analyserEtat c st).1 := by
  obtain ⟨h1, _, h3⟩ := analyserEtat_spec m c st
  obtain ⟨h1b, _, _⟩ := analyserEtat_spec m c ((m.analyserEtat c st).2)
  refine ⟨h3 _ h, h3, ?_⟩
  rw [h1b, h1, h3 _ h]

/-- C10 witness: a dry run (the branch with the in-place sort) over a concrete store
leaves the stored catalog untouched and a second identical call returns the same
result. -/
theorem C10_temoin :
    lire ((MoteurDecision.mk 0).analyserEtat conditionsSeches storeExemple).2 0
        = lire storeExemple 0
  ∧ ((MoteurDecision.mk 0).analyserEtat conditionsSeches
        (((MoteurDecision.mk 0).analyserEtat conditionsSeches storeExemple).2)).1
      = ((MoteurDecision.mk 0).analyserEtat conditionsSeches storeExemple).1 := by
  have h := C10_analyser_sans_effet storeExemple (MoteurDecision.mk 0) conditionsSeches
    (by decide)
  exact ⟨h.1, h.2.2⟩

end Algorithme
